import Mathlib

/-!
Verification development for the falling-block grid simulation in
`src/tetris/src/main.rs` (a bevy 0.6 application).

Embedding conventions:
* All world lengths are scaled by 2 so that every quantity appearing in the
  program's f32 arithmetic (positions on the 20-pixel cell lattice, sizes such
  as 20+1 whose halves are 10.5, wall extents) is an exact integer.  On these
  values every f32 operation the program performs (add, subtract, halve,
  divide a lattice sum by 4, compare) is exact, so the `Int` model computes
  the same results as the Rust floats.
* Entity identifiers are `Nat`; the `u32::MAX` empty-slot sentinel of
  `when_object_landed` is the constant `EMPTY`.
* The bevy ECS queries iterate entities in an unspecified order; lists encode
  one fixed iteration order (spawn order).  All facts proved below either do
  not depend on the order or are stated for that order.
-/

/-- Planar vector with integer (doubled-world) coordinates, standing for the
bevy `Vec2`/`Vec3.truncate` values used by the simulation. -/
structure V2 where
  x : Int
  y : Int
deriving DecidableEq, Repr

/-- Componentwise addition of `V2`. -/
def V2.add (a b : V2) : V2 := ⟨a.x + b.x, a.y + b.y⟩

instance : Add V2 := ⟨V2.add⟩

/-- Sides reported by bevy's `sprite::collide_aabb::Collision`. -/
inductive Collision where
  | Left
  | Right
  | Top
  | Bottom
  | Inside
deriving DecidableEq, Repr

/-- Bevy 0.6 `collide_aabb::collide(a_pos, a_size, b_pos, b_size)`: axis-aligned
box overlap test returning the side of `b` on which `a` sits.  When both an x-
and a y-side collision are detected the smaller penetration depth wins, ties
going to the x side; when the boxes overlap without either box's x- or y-edges
straddling, the result is `Inside` (bevy encodes that case with a depth of
negative infinity, which loses every depth comparison — the two formulations
agree).  All coordinates here are doubled, so `size/2` is exact. -/
def collide (aPos aSize bPos bSize : V2) : Option Collision :=
  let aMinX := aPos.x - aSize.x / 2
  let aMaxX := aPos.x + aSize.x / 2
  let aMinY := aPos.y - aSize.y / 2
  let aMaxY := aPos.y + aSize.y / 2
  let bMinX := bPos.x - bSize.x / 2
  let bMaxX := bPos.x + bSize.x / 2
  let bMinY := bPos.y - bSize.y / 2
  let bMaxY := bPos.y + bSize.y / 2
  if aMinX < bMaxX ∧ aMaxX > bMinX ∧ aMinY < bMaxY ∧ aMaxY > bMinY then
    let xc : Option (Collision × Int) :=
      if aMinX < bMinX ∧ aMaxX > bMinX ∧ aMaxX < bMaxX then some (.Left, bMinX - aMaxX)
      else if aMinX > bMinX ∧ aMinX < bMaxX ∧ aMaxX > bMaxX then some (.Right, aMinX - bMaxX)
      else none
    let yc : Option (Collision × Int) :=
      if aMinY < bMinY ∧ aMaxY > bMinY ∧ aMaxY < bMaxY then some (.Bottom, bMinY - aMaxY)
      else if aMinY > bMinY ∧ aMinY < bMaxY ∧ aMaxY > bMaxY then some (.Top, aMinY - bMaxY)
      else none
    match xc, yc with
    | some (xs, xd), some (ys, yd) => if |yd| < |xd| then some ys else some xs
    | some (xs, _), none => some xs
    | none, some (ys, _) => some ys
    | none, none => some .Inside
  else none

/-- Wall x-coordinate `LEFT_WALL = -115.` (doubled). -/
def LEFT_WALL : Int := -230

/-- Wall x-coordinate `RIGHT_WALL = 115.` (doubled). -/
def RIGHT_WALL : Int := 230

/-- Wall y-coordinate `BOTTOM_WALL = -250.` (doubled). -/
def BOTTOM_WALL : Int := -500

/-- Wall y-coordinate `TOP_WALL = 250.` (doubled). -/
def TOP_WALL : Int := 500

/-- Wall sprite thickness `WALL_THICKNESS = 10.` (doubled). -/
def WALL_THICKNESS : Int := 20

/-- Cell sprite scale `SQUARE_SIZE = 20.` (doubled); also the lattice pitch. -/
def SQUARE_SIZE : Int := 40

/-- Spawn anchor `START_X = -20.` (doubled). -/
def START_X : Int := -40

/-- Spawn anchor `START_Y = 180.` (doubled). -/
def START_Y : Int := 360

/-- Sprite with a translation and a scale: the data the collision systems read
from a `Transform` (walls have wall-sized scales, cells `SQUARE_SIZE`). -/
structure Box where
  pos : V2
  scale : V2
deriving DecidableEq, Repr

/-- Interior height of the playfield, `TOP_WALL - BOTTOM_WALL`. -/
def wallHeight : Int := TOP_WALL - BOTTOM_WALL

/-- Interior width of the playfield, `RIGHT_WALL - LEFT_WALL`. -/
def wallWidth : Int := RIGHT_WALL - LEFT_WALL

/-- The left wall sprite (`WallLocation::Left` position and size). -/
def leftWallBox : Box := ⟨⟨LEFT_WALL, 0⟩, ⟨WALL_THICKNESS, wallHeight + WALL_THICKNESS⟩⟩

/-- The right wall sprite (`WallLocation::Right` position and size). -/
def rightWallBox : Box := ⟨⟨RIGHT_WALL, 0⟩, ⟨WALL_THICKNESS, wallHeight + WALL_THICKNESS⟩⟩

/-- The bottom wall sprite (`WallLocation::Bottom` position and size). -/
def bottomWallBox : Box := ⟨⟨0, BOTTOM_WALL⟩, ⟨wallWidth + WALL_THICKNESS, WALL_THICKNESS⟩⟩

/-- The top wall sprite (`WallLocation::Top` position and size). -/
def topWallBox : Box := ⟨⟨0, TOP_WALL⟩, ⟨wallWidth + WALL_THICKNESS, WALL_THICKNESS⟩⟩

/-- The four wall entities, in the order `setup` spawns them. -/
def walls : List Box := [leftWallBox, rightWallBox, bottomWallBox, topWallBox]

/-- Scale of every cell sprite, as set by `spawn_square`. -/
def squareScale : V2 := ⟨SQUARE_SIZE, SQUARE_SIZE⟩

/-- One `collide` call as every movement/gravity system makes it: block `b`
first, the falling square second, both sizes inflated by 1 world unit
(2 doubled units), exactly `Vec2::new(scale.x + 1., scale.y + 1.)`. -/
def collideBlockGravity (b : Box) (gPos gScale : V2) : Option Collision :=
  collide b.pos ⟨b.scale.x + 2, b.scale.y + 2⟩ gPos ⟨gScale.x + 2, gScale.y + 2⟩

/-- The three translation requests handled by `keyboard_events`
(`KeyCode::Left/Right/Down`); `apply_gravity` repeats the `Down` logic. -/
inductive MoveDir where
  | left
  | right
  | down
deriving DecidableEq, Repr

/-- Collision side on which each handler rejects its move:
`Collision::Left` for left, `Collision::Right` for right, `Collision::Bottom`
for down (all other sides are ignored by the handler). -/
def MoveDir.side : MoveDir → Collision
  | .left => .Left
  | .right => .Right
  | .down => .Bottom

/-- Translation each handler commits when not rejected: `x -= 20.`,
`x += 20.`, `y -= 20.` (doubled). -/
def MoveDir.delta : MoveDir → V2
  | .left => ⟨-40, 0⟩
  | .right => ⟨40, 0⟩
  | .down => ⟨0, -40⟩

/-- Rejection scan of `keyboard_events` for one direction: some falling square
collides with some block (wall or settled cell) on the direction's side, at the
piece's current position.  The Rust loop returns on the first such pair;
since nothing is mutated while scanning this equals an existence check. -/
def moveRejected (d : MoveDir) (gravs : List V2) (blocks : List Box) : Bool :=
  gravs.any fun g => blocks.any fun b =>
    decide (collideBlockGravity b g squareScale = some d.side)

/-- One `keyboard_events` translation handler: if the rejection scan fires the
state is untouched, otherwise every falling square is shifted by the offset. -/
def keyboardMove (d : MoveDir) (gravs : List V2) (blocks : List Box) : List V2 :=
  if moveRejected d gravs blocks then gravs else gravs.map (· + d.delta)

/-- The `Gravity` component value `Gravity::default() = (0., 20.)` (doubled). -/
def gravityVec : V2 := ⟨0, 40⟩

/-- The `apply_gravity` system: identical rejection scan to the `Down` handler
(return on the first `Collision::Bottom`), then `y -= gravity.y` on every
falling square. -/
def applyGravity (gravs : List V2) (blocks : List Box) : List V2 :=
  if moveRejected .down gravs blocks then gravs
  else gravs.map fun g => ⟨g.x, g.y - gravityVec.y⟩

/-- The exact integer value of `std::f32::MAX`, the initial best distance of
the rotation pivot search; larger than every distance that can arise. -/
def F32_MAX : Nat := 340282346638528859811704183484516925440

/-- Centroid `(mid_x, mid_y)` of the falling squares: components summed and
divided by 4.  On the cell lattice the sums are multiples of 4, so the f32
division is exact and equals this integer division. -/
def midPoint (gravs : List V2) : V2 :=
  ⟨(gravs.foldl (fun s g => s + g.x) 0) / 4, (gravs.foldl (fun s g => s + g.y) 0) / 4⟩

/-- Pivot search of the `Up` handler: the square with the strictly smallest
Manhattan distance to the centroid, earlier squares winning ties (the update
uses a strict `<` against the best so far, which starts at `f32::MAX`). -/
def closestToMid (gravs : List V2) (mid : V2) : V2 :=
  (gravs.foldl
    (fun acc g =>
      let dist := (g.x - mid.x).natAbs + (g.y - mid.y).natAbs
      if dist < acc.2 then (g, dist) else acc)
    (⟨0, 0⟩, F32_MAX)).1

/-- Rotation transform of the `Up` handler around the pivot `c`:
`(x, y) -> (y + cx - cy, -x + cy + cx)`. -/
def rotatePos (c g : V2) : V2 :=
  ⟨g.y + c.x - c.y, -g.x + c.y + c.x⟩

/-- Rotation rejection scan: each square's rotated position is tested against
every block, and — as the source does — the rotated square's test box is given
the block's inflated scale, not its own; any collision at all rejects. -/
def rotateRejected (gravs : List V2) (blocks : List Box) : Bool :=
  let c := closestToMid gravs (midPoint gravs)
  gravs.any fun g => blocks.any fun b =>
    (collide b.pos ⟨b.scale.x + 2, b.scale.y + 2⟩ (rotatePos c g)
      ⟨b.scale.x + 2, b.scale.y + 2⟩).isSome

/-- The `Up` (rotate) handler of `keyboard_events`: reject if the scan fires,
otherwise rotate every falling square around the pivot. -/
def keyboardRotate (gravs : List V2) (blocks : List Box) : List V2 :=
  if rotateRejected gravs blocks then gravs
  else
    let c := closestToMid gravs (midPoint gravs)
    gravs.map (rotatePos c)

/-- The five piece shapes of the `ShapeTypes` enum. -/
inductive ShapeTypes where
  | Square
  | Line
  | SquareTop
  | Zigzag
  | LShape
deriving DecidableEq, Repr

/-- `ShapeTypes::build(x, y)`: the four absolute cell positions of each shape,
in source order. -/
def ShapeTypes.build : ShapeTypes → Int → Int → List V2
  | .Square, x, y =>
      [⟨x, y⟩, ⟨x + SQUARE_SIZE, y⟩, ⟨x, y - SQUARE_SIZE⟩, ⟨x + SQUARE_SIZE, y - SQUARE_SIZE⟩]
  | .Line, x, y =>
      [⟨x, y⟩, ⟨x + SQUARE_SIZE, y⟩, ⟨x + SQUARE_SIZE + SQUARE_SIZE, y⟩,
        ⟨x + SQUARE_SIZE + SQUARE_SIZE + SQUARE_SIZE, y⟩]
  | .SquareTop, x, y =>
      [⟨x, y⟩, ⟨x + SQUARE_SIZE, y⟩, ⟨x + SQUARE_SIZE + SQUARE_SIZE, y⟩,
        ⟨x + SQUARE_SIZE, y + SQUARE_SIZE⟩]
  | .Zigzag, x, y =>
      [⟨x, y⟩, ⟨x + SQUARE_SIZE, y⟩, ⟨x + SQUARE_SIZE, y - SQUARE_SIZE⟩,
        ⟨x + SQUARE_SIZE + SQUARE_SIZE, y - SQUARE_SIZE⟩]
  | .LShape, x, y =>
      [⟨x, y⟩, ⟨x + SQUARE_SIZE, y⟩, ⟨x + SQUARE_SIZE + SQUARE_SIZE, y⟩,
        ⟨x + SQUARE_SIZE + SQUARE_SIZE, y + SQUARE_SIZE⟩]

/-- Grid lattice: the position of column `c` (0..10) and row `r` (0..21), the
inverse of the `(x + 100)/20`, `(y + 240)/20` indexing of
`when_object_landed` (doubled). -/
def onLattice (p : V2) : Prop :=
  ∃ c r : Int, 0 ≤ c ∧ c ≤ 10 ∧ 0 ≤ r ∧ r ≤ 21 ∧ p = ⟨40 * c - 200, 40 * r - 480⟩

/-- Boxes of a list of settled-cell positions as the block queries see them. -/
def cellBoxesP (ps : List V2) : List Box := ps.map fun p => ⟨p, squareScale⟩

/-- The `u32::MAX` sentinel marking an empty `entity_matrix` slot. -/
def EMPTY : Nat := 4294967295

/-- The 22-row, 11-column occupancy matrix of `when_object_landed`, indexed
row (`y`, 0 = bottom) first then column (`x`), holding an entity id or
`EMPTY`.  A total function keeps updates simple; only indices `y < 22`,
`x < 11` are meaningful, matching the `Vec<Vec<u32>>` bounds. -/
def Grid := Nat → Nat → Nat

/-- Write one matrix slot, `entity_matrix[y][x] = v`. -/
def mset (m : Grid) (y x v : Nat) : Grid :=
  fun y' x' => if y' = y ∧ x' = x then v else m y' x'

/-- Integer range `[s, s+1, ..., s+n-1]`, the loop counters `for i in s..s+n`. -/
def rowsFrom : Nat → Nat → List Nat
  | _, 0 => []
  | s, n + 1 => s :: rowsFrom (s + 1) n

/-- Row-fullness scan of `when_object_landed`: every column of row `y` holds
a non-`EMPTY` id. -/
def rowFull (m : Grid) (y : Nat) : Bool :=
  (rowsFrom 0 11).all fun x => m y x != EMPTY

/-- The rows collected in `target_rows_to_delete`, in increasing order. -/
def targetRowsToDelete (m : Grid) : List Nat :=
  (rowsFrom 0 22).filter (rowFull m)

/-- `max_target_row`: starts at 0 and is overwritten by each full row found,
ending at the last (highest) full row. -/
def maxTargetRow (m : Grid) : Nat :=
  (targetRowsToDelete m).foldl (fun _ y => y) 0

/-- The piece-group registry `GameObjects.objects`: a map from entity id to
the list of ids spawned together with it (itself included), embedded as a
partial function in place of the `HashMap<Entity, Vec<Entity>>`. -/
def Registry := Nat → Option (List Nat)

/-- `HashMap::insert`. -/
def regInsert (r : Registry) (k : Nat) (v : List Nat) : Registry :=
  fun k' => if k' = k then some v else r k'

/-- In-place mutation of one entry, `objects.get_mut(&k)` followed by an edit;
absent keys are left absent (the source would panic on its `unwrap`, which
cannot happen under the registry invariants proved below). -/
def regUpdate (r : Registry) (k : Nat) (f : List Nat → List Nat) : Registry :=
  fun k' => if k' = k then (r k').map f else r k'

/-- `HashMap::remove`. -/
def regRemove (r : Registry) (k : Nat) : Registry :=
  fun k' => if k' = k then none else r k'

/-- Detachment of one cleared cell from the registry, as performed inside the
row-deletion loop of `when_object_landed`: for every entity in the cleared
id's own list, remove the first occurrence of the cleared id from that
entity's list (`position` + `Vec::remove`, which `List.erase` matches), then
remove the cleared id's own entry. -/
def detachEntity (r : Registry) (id : Nat) : Registry :=
  let related := (r id).getD []
  regRemove (related.foldl (fun acc rel => regUpdate acc rel (fun l => l.erase id)) r) id

/-- State threaded through the row-deletion loop: the matrix, the registry,
and the ids despawned so far. -/
structure ClearState where
  grid : Grid
  objects : Registry
  despawned : List Nat

/-- Deletion of one slot of a full row: despawn the occupant, detach it from
the registry, blank the slot. -/
def deleteCell (s : ClearState) (y x : Nat) : ClearState :=
  let id := s.grid y x
  { grid := mset s.grid y x EMPTY
    objects := detachEntity s.objects id
    despawned := s.despawned ++ [id] }

/-- Deletion of one full row (`for x in 0..11`). -/
def deleteRow (s : ClearState) (y : Nat) : ClearState :=
  (rowsFrom 0 11).foldl (fun s x => deleteCell s y x) s

/-- Deletion of every collected full row. -/
def deleteRows (s : ClearState) (rows : List Nat) : ClearState :=
  rows.foldl deleteRow s

/-- The `resize_info_map`: entity id to the distance its transform must drop. -/
def ResizeInfo := Nat → Option Int

/-- The empty `resize_info_map`. -/
def emptyInfo : ResizeInfo := fun _ => none

/-- `HashMap::insert` on the resize map. -/
def infoInsert (r : ResizeInfo) (k : Nat) (v : Int) : ResizeInfo :=
  fun k' => if k' = k then some v else r k'

/-- The `while max_y > 0 && entity_matrix[max_y - 1][x] == u32::MAX` descent
of `resize_all_objects`: the lowest row reachable from `y` by falling through
empty slots of column `x`. -/
def dropDest (m : Grid) (x : Nat) : Nat → Nat
  | 0 => 0
  | y + 1 => if m y x == EMPTY then dropDest m x y else y + 1

/-- State threaded through the compaction pass: matrix plus resize map. -/
structure RState where
  grid : Grid
  info : ResizeInfo

/-- One inner-loop step of `resize_all_objects` for slot `(y, x)`: record the
drop distance (`(y - max_y) * 20.`, doubled) for the slot's id, write the
slot's value at the destination, then blank the source slot.  The source
performs these writes even when the slot is empty (inserting garbage under the
`u32::MAX` key) and even when the destination equals the source — in which
case the final blanking erases the unmoved id from the working matrix. -/
def resizeSlot (s : RState) (y x : Nat) : RState :=
  let id := s.grid y x
  let d := dropDest s.grid x y
  { grid := mset (mset s.grid d x (s.grid y x)) y x EMPTY
    info := infoInsert s.info id (((y - d : Nat) : Int) * 40) }

/-- One row of the compaction pass (`for x in 0..11`). -/
def resizeRow (s : RState) (y : Nat) : RState :=
  (rowsFrom 0 11).foldl (fun s x => resizeSlot s y x) s

/-- `resize_all_objects`: process every row from `last_row` (the highest
cleared row) to the top. -/
def resizeAllObjects (s : RState) (lastRow : Nat) : RState :=
  (rowsFrom lastRow (22 - lastRow)).foldl resizeRow s

/-- World state of the simulation as the collision/settlement systems see it:
the falling (`Gravity`) cells, the settled (`Block`, non-wall) cells, the
piece-group registry, and the next fresh entity id. -/
structure SimState where
  active : List (Nat × V2)
  settled : List (Nat × V2)
  objects : Registry
  nextId : Nat

/-- Boxes of the settled cells as the block queries report them. -/
def cellBoxes (settled : List (Nat × V2)) : List Box :=
  settled.map fun c => ⟨c.2, squareScale⟩

/-- Everything carrying `Block` and `Collider`: the walls plus the settled
cells. -/
def blockBoxes (s : SimState) : List Box := walls ++ cellBoxes s.settled

/-- The scan of `check_for_collision`: the first falling cell that collides
with some block on side `Bottom` (other sides are skipped and scanning
continues), if any. -/
def findFirstBottom (s : SimState) : Option (Nat × V2) :=
  s.active.find? fun g => (blockBoxes s).any fun b =>
    decide (collideBlockGravity b g.2 squareScale = some Collision.Bottom)

/-- `remove_related_entities`: every entity in the landing cell's registry
group receives `Block` and loses `Gravity`, i.e. moves from the falling set to
the settled set. -/
def removeRelatedEntities (s : SimState) (id : Nat) : SimState :=
  let grp := (s.objects id).getD []
  { s with
    active := s.active.filter fun c => !(grp.contains c.1)
    settled := s.settled ++ s.active.filter fun c => grp.contains c.1 }

/-- Ids of the four cells the next spawn creates (fresh ECS entities). -/
def spawnEntityIds (s : SimState) : List Nat :=
  [s.nextId, s.nextId + 1, s.nextId + 2, s.nextId + 3]

/-- `spawn_random_shape` with the randomly drawn shape passed explicitly: four
cells of the shape built at the fixed spawn anchor become falling entities,
and each new id is mapped in the registry to the full list of the four. -/
def spawnRandomShape (shape : ShapeTypes) (s : SimState) : SimState :=
  let ids := spawnEntityIds s
  let cells := ids.zip (shape.build START_X START_Y)
  { s with
    active := s.active ++ cells
    objects := ids.foldl (fun r e => regInsert r e ids) s.objects
    nextId := s.nextId + 4 }

/-- Column index `(x + 100.) / 20.` of a cell transform (doubled; the `as
usize` cast saturates negatives to 0, matching `Int.toNat`). -/
def colIdx (p : V2) : Nat := ((p.x + 200) / 40).toNat

/-- Row index `(y + 240.) / 20.` of a cell transform (doubled). -/
def rowIdx (p : V2) : Nat := ((p.y + 480) / 40).toNat

/-- The `entity_matrix` built at the start of `when_object_landed`: all
settled non-wall cells of the stale block query, plus the single landing
gravity cell (its three siblings are not yet visible to the query and are
absent). -/
def buildEntityMatrix (settledOld : List (Nat × V2)) (g : Nat × V2) : Grid :=
  let m0 : Grid := fun _ _ => EMPTY
  let m1 := settledOld.foldl (fun m c => mset m (rowIdx c.2) (colIdx c.2) c.1) m0
  mset m1 (rowIdx g.2) (colIdx g.2) g.1

/-- `when_object_landed`, acting on the semantic state: build the matrix from
the stale settled query plus the landing cell, scan for full rows; if any,
delete them (despawns and registry detachments) and run the compaction pass,
then apply the recorded drops to the transforms of the stale query's entities
(only those — the landing piece's cells are not in the query and never
move). -/
def whenObjectLanded (s : SimState) (g : Nat × V2) (settledOld : List (Nat × V2)) : SimState :=
  let m := buildEntityMatrix settledOld g
  let trs := targetRowsToDelete m
  if trs.length > 0 then
    let cs := deleteRows ⟨m, s.objects, []⟩ trs
    let rs := resizeAllObjects ⟨cs.grid, emptyInfo⟩ (maxTargetRow m)
    let oldIds := settledOld.map (·.1)
    { s with
      objects := cs.objects
      settled := (s.settled.filter fun c => !(cs.despawned.contains c.1)).map fun c =>
        if oldIds.contains c.1 then
          match rs.info c.1 with
          | some dv => (c.1, ⟨c.2.x, c.2.y - dv⟩)
          | none => c
        else c }
  else s

/-- The `check_for_collision` system with the spawn's random shape passed
explicitly: on the first falling cell blocked below, run
`remove_related_entities`, then `spawn_random_shape`, then
`when_object_landed` — the latter against the settled set as it was when the
tick's queries were taken. -/
def checkForCollision (shape : ShapeTypes) (s : SimState) : SimState :=
  match findFirstBottom s with
  | some g => whenObjectLanded (spawnRandomShape shape (removeRelatedEntities s g.1)) g s.settled
  | none => s

/-- Bounds-checked access to a `Vec<Vec<u32>>` matrix: `none` models the
panic of out-of-range `Vec` indexing (`entity_matrix[y][x]`), `some` the
returned value. -/
def matrixGet (m : List (List Nat)) (y x : Nat) : Option Nat :=
  (m.get? y).bind fun row => row.get? x

/-- The freshly initialised matrix `vec![vec![u32::MAX; 11]; 22]`. -/
def entityMatrixInit : List (List Nat) :=
  List.replicate 22 (List.replicate 11 EMPTY)

/-- The Line piece as spawned at the fixed anchor. -/
def lineAtSpawn : List V2 := ShapeTypes.build .Line START_X START_Y

/-- A Square piece resting on the floor: columns 4 and 5, rows 0 and 1. -/
def sqBottom : List V2 := ShapeTypes.build .Square (-40) (-440)

/-- Candidate cells of `sqBottom` for a left move. -/
def sqBottomCand : List V2 := sqBottom.map (· + MoveDir.left.delta)

/-- The Square piece as spawned at the fixed anchor. -/
def squareAtSpawn : List V2 := ShapeTypes.build .Square START_X START_Y

/-- Column-local absence of gaps: in column `x`, every occupied slot in rows
`[L, bound)` has an occupied slot (or the floor) directly below it. -/
def noGapAbove (m : Grid) (x bound L : Nat) : Prop :=
  ∀ y, L ≤ y → y < bound → m y x ≠ EMPTY → y = 0 ∨ m (y - 1) x ≠ EMPTY

/-- A grid entering the line-clear with one full row (row 20) and a hole under
a settled cell: column 0 holds a cell at row 1 with row 0 empty. -/
def gapGrid : Grid := fun y x =>
  if y = 20 ∧ x < 11 then 100 + x
  else if y = 1 ∧ x = 0 then 200
  else EMPTY

/-- A column with cells at rows 19, 20 and 21; compaction from `lastRow = 20`
leaves an occupied slot at row 20 supported by row 19. -/
def supportGrid : Grid := fun y x =>
  if x = 0 ∧ 19 ≤ y ∧ y ≤ 21 then y + 5 else EMPTY

/-- Number of occupied slots in row `y`. -/
def rowCount (m : Grid) (y : Nat) : Nat :=
  ((rowsFrom 0 11).filter fun x => m y x != EMPTY).length

/-- Total number of occupied slots of the 22x11 occupancy matrix. -/
def countOcc (m : Grid) : Nat :=
  ∑ y ∈ Finset.range 22, rowCount m y

/-- A Line piece resting on the floor (ids 0..3), group registered, grid
otherwise empty: the state one tick before its settlement. -/
def lineBottomState : SimState :=
  { active := [0, 1, 2, 3].zip (ShapeTypes.build .Line (-40) (-480))
    settled := []
    objects := fun k => if k < 4 then some [0, 1, 2, 3] else none
    nextId := 4 }

@[simp]
theorem V2.add_mk (a b c d : Int) : (⟨a, b⟩ + ⟨c, d⟩ : V2) = ⟨a + c, b + d⟩ := rfl

@[simp]
theorem V2.add_x (a b : V2) : (a + b).x = a.x + b.x := rfl

@[simp]
theorem V2.add_y (a b : V2) : (a + b).y = a.y + b.y := rfl

@[simp]
theorem mset_same (m : Grid) (y x v : Nat) : mset m y x v y x = v := by
  simp [mset]

theorem mset_other (m : Grid) (y x v y' x' : Nat) (h : ¬(y' = y ∧ x' = x)) :
    mset m y x v y' x' = m y' x' := by
  simp [mset, h]

theorem mem_rowsFrom (a : Nat) : ∀ s n, a ∈ rowsFrom s n ↔ s ≤ a ∧ a < s + n := by
  intro s n
  induction n generalizing s with
  | zero => simp [rowsFrom]
  | succ k ih =>
    simp only [rowsFrom, List.mem_cons, ih (s + 1)]
    omega

theorem rowsFrom_nodup : ∀ s n, (rowsFrom s n).Nodup := by
  intro s n
  induction n generalizing s with
  | zero => simp [rowsFrom]
  | succ k ih =>
    simp only [rowsFrom, List.nodup_cons]
    exact ⟨fun h => by rw [mem_rowsFrom] at h; omega, ih (s + 1)⟩

theorem length_rowsFrom : ∀ s n, (rowsFrom s n).length = n := by
  intro s n
  induction n generalizing s with
  | zero => rfl
  | succ k ih => simp [rowsFrom, ih]

/-- Classification helper: a settled cell one lattice step to the left of a
falling square collides with it on side `Left` (the inflated boxes of the two
adjacent 20-unit squares overlap by one world unit on the x axis only). -/
theorem collideCell_left (px py : Int) :
    collideBlockGravity ⟨⟨px - 40, py⟩, squareScale⟩ ⟨px, py⟩ squareScale =
      some Collision.Left := by
  simp only [collideBlockGravity, collide, squareScale, SQUARE_SIZE]
  split_ifs <;> simp_all <;> omega

/-- Classification helper: a settled cell one lattice step to the right of a
falling square collides with it on side `Right`. -/
theorem collideCell_right (px py : Int) :
    collideBlockGravity ⟨⟨px + 40, py⟩, squareScale⟩ ⟨px, py⟩ squareScale =
      some Collision.Right := by
  simp only [collideBlockGravity, collide, squareScale, SQUARE_SIZE]
  split_ifs <;> simp_all <;> omega

/-- Classification helper: a settled cell one lattice step below a falling
square collides with it on side `Bottom`. -/
theorem collideCell_below (px py : Int) :
    collideBlockGravity ⟨⟨px, py - 40⟩, squareScale⟩ ⟨px, py⟩ squareScale =
      some Collision.Bottom := by
  simp only [collideBlockGravity, collide, squareScale, SQUARE_SIZE]
  split_ifs <;> simp_all <;> omega

/-- Classification helper: the left wall collides on side `Left` with a
falling square in column 0, at any playfield row. -/
theorem collideWall_left (py : Int) (h0 : -480 ≤ py) (h1 : py ≤ 360) :
    collideBlockGravity leftWallBox ⟨-200, py⟩ squareScale = some Collision.Left := by
  simp only [collideBlockGravity, collide, squareScale, SQUARE_SIZE, leftWallBox,
    LEFT_WALL, WALL_THICKNESS, wallHeight, TOP_WALL, BOTTOM_WALL]
  split_ifs <;> simp_all <;> omega

/-- Classification helper: the right wall collides on side `Right` with a
falling square in column 10, at any playfield row. -/
theorem collideWall_right (py : Int) (h0 : -480 ≤ py) (h1 : py ≤ 360) :
    collideBlockGravity rightWallBox ⟨200, py⟩ squareScale = some Collision.Right := by
  simp only [collideBlockGravity, collide, squareScale, SQUARE_SIZE, rightWallBox,
    RIGHT_WALL, WALL_THICKNESS, wallHeight, TOP_WALL, BOTTOM_WALL]
  split_ifs <;> simp_all <;> omega

/-- Classification helper: the bottom wall collides on side `Bottom` with a
falling square in row 0, at any playfield column. -/
theorem collideWall_bottom (px : Int) (h0 : -200 ≤ px) (h1 : px ≤ 200) :
    collideBlockGravity bottomWallBox ⟨px, -480⟩ squareScale = some Collision.Bottom := by
  simp only [collideBlockGravity, collide, squareScale, SQUARE_SIZE, bottomWallBox,
    BOTTOM_WALL, WALL_THICKNESS, wallWidth, LEFT_WALL, RIGHT_WALL]
  split_ifs <;> simp_all <;> omega

/-- Propositional form of an accepted move: no falling square has a block on
the movement side. -/
theorem moveRejected_eq_false_iff (d : MoveDir) (gravs : List V2) (blocks : List Box) :
    moveRejected d gravs blocks = false ↔
      ∀ g ∈ gravs, ∀ b ∈ blocks, collideBlockGravity b g squareScale ≠ some d.side := by
  simp [moveRejected]

/-- Classification helper: a settled cell occupying the destination of a
translate request collides with the falling square on exactly the side the
request's handler rejects on. -/
theorem collideCell_delta (p : V2) (d : MoveDir) :
    collideBlockGravity ⟨p + d.delta, squareScale⟩ p squareScale = some d.side := by
  obtain ⟨x, y⟩ := p
  cases d <;>
    · simp only [MoveDir.delta, MoveDir.side, V2.add_mk, collideBlockGravity, collide,
        squareScale, SQUARE_SIZE]
      split_ifs <;> simp_all <;> omega

/-- Claim C1, counterexample to the claim as stated: with an empty grid and a
Square piece resting on the floor, the left move is accepted and committed
(the piece's cells change), yet re-running the collider on the piece's new
cell positions against the walls and settled cells returns a collision, not
`none` — the inflated collision boxes report mere adjacency (here `Bottom`
against the floor), so an accepted move does not make the collider silent. -/
theorem keyboardMove_recheck_collision_ce :
    keyboardMove .left sqBottom (walls ++ cellBoxesP []) ≠ sqBottom ∧
    ((walls ++ cellBoxesP []).any fun b =>
      (keyboardMove .left sqBottom (walls ++ cellBoxesP [])).any fun p =>
        (collideBlockGravity b p squareScale).isSome) = true := by decide

/-- Claim C1 (amended): an accepted and committed translate request never
produces overlapping occupied cells — every falling cell's new position is an
in-grid lattice cell occupied by no settled cell; moreover the gravity
system's downward move is the same operation as the `Down` handler, so the
same holds on gravity ticks.  (What fails in the original claim is only the
words "returns no collision": the collider also reports adjacency.) -/
theorem tryTranslate_accepted_no_overlap (d : MoveDir) (gravs settled : List V2)
    (hg : ∀ p ∈ gravs, onLattice p)
    (hacc : moveRejected d gravs (walls ++ cellBoxesP settled) = false) :
    (∀ p ∈ gravs, onLattice (p + d.delta) ∧ p + d.delta ∉ settled) ∧
      applyGravity gravs (walls ++ cellBoxesP settled) =
        keyboardMove .down gravs (walls ++ cellBoxesP settled) := by
  rw [moveRejected_eq_false_iff] at hacc
  constructor
  · intro p hp
    obtain ⟨c, r, hc0, hc10, hr0, hr21, hpe⟩ := hg p hp
    have hnotmem : p + d.delta ∉ settled := by
      intro hq
      have hbmem : (⟨p + d.delta, squareScale⟩ : Box) ∈ walls ++ cellBoxesP settled := by
        simp only [cellBoxesP, List.mem_append, List.mem_map]
        exact Or.inr ⟨p + d.delta, hq, rfl⟩
      exact hacc _ hp _ hbmem (collideCell_delta p d)
    refine ⟨?_, hnotmem⟩
    subst hpe
    cases d with
    | left =>
      have hc1 : 1 ≤ c := by
        by_contra hlt
        have hc : c = 0 := by omega
        subst hc
        refine hacc _ hp leftWallBox (by simp [walls]) ?_
        have := collideWall_left (40 * r - 480) (by omega) (by omega)
        simpa using this
      exact ⟨c - 1, r, by omega, by omega, hr0, hr21,
        by simp only [MoveDir.delta, V2.add_mk, V2.mk.injEq]; omega⟩
    | right =>
      have hc9 : c ≤ 9 := by
        by_contra hlt
        have hc : c = 10 := by omega
        subst hc
        refine hacc _ hp rightWallBox (by simp [walls]) ?_
        have := collideWall_right (40 * r - 480) (by omega) (by omega)
        simpa using this
      exact ⟨c + 1, r, by omega, by omega, hr0, hr21,
        by simp only [MoveDir.delta, V2.add_mk, V2.mk.injEq]; omega⟩
    | down =>
      have hr1 : 1 ≤ r := by
        by_contra hlt
        have hr : r = 0 := by omega
        subst hr
        refine hacc _ hp bottomWallBox (by simp [walls]) ?_
        have := collideWall_bottom (40 * c - 200) (by omega) (by omega)
        simpa using this
      exact ⟨c, r - 1, hc0, hc10, by omega, by omega,
        by simp only [MoveDir.delta, V2.add_mk, V2.mk.injEq]; omega⟩
  · have hmapeq : (fun g : V2 => (⟨g.x, g.y - gravityVec.y⟩ : V2)) = (· + MoveDir.down.delta) := by
      funext g
      obtain ⟨x, y⟩ := g
      simp only [MoveDir.delta, V2.add_mk, V2.mk.injEq, gravityVec]
      omega
    simp only [applyGravity, keyboardMove, hmapeq]

/-- Claim C1, witness: the Line piece at spawn over an empty grid accepts the
downward move, and the witnessed cell lands on-lattice, overlapping nothing. -/
theorem tryTranslate_accepted_no_overlap_witness :
    onLattice ((⟨-40, 360⟩ : V2) + MoveDir.down.delta) ∧
      (⟨-40, 360⟩ : V2) + MoveDir.down.delta ∉ ([] : List V2) := by
  have hg : ∀ p ∈ lineAtSpawn, onLattice p := by
    intro p hp
    have hp4 : p = ⟨-40, 360⟩ ∨ p = ⟨0, 360⟩ ∨ p = ⟨40, 360⟩ ∨ p = ⟨80, 360⟩ := by
      simpa [lineAtSpawn, ShapeTypes.build, START_X, START_Y, SQUARE_SIZE] using hp
    rcases hp4 with rfl | rfl | rfl | rfl
    · exact ⟨4, 21, by norm_num, by norm_num, by norm_num, by norm_num, by norm_num⟩
    · exact ⟨5, 21, by norm_num, by norm_num, by norm_num, by norm_num, by norm_num⟩
    · exact ⟨6, 21, by norm_num, by norm_num, by norm_num, by norm_num, by norm_num⟩
    · exact ⟨7, 21, by norm_num, by norm_num, by norm_num, by norm_num, by norm_num⟩
  exact (tryTranslate_accepted_no_overlap .down lineAtSpawn [] hg (by decide)).1
    ⟨-40, 360⟩ (by decide)

/-- Claim C6, counterexample to the claim as stated: the collider reports a
collision for the candidate positions of a left move (the shifted piece still
touches the floor, side `Bottom`), yet the move is committed — the code's
guard only consults the direction's side at the current position, not the
collider's verdict on the candidate cells. -/
theorem keyboardMove_candidate_collision_ce :
    ((walls ++ cellBoxesP []).any fun b => sqBottomCand.any fun p =>
        (collideBlockGravity b p squareScale).isSome) = true ∧
    keyboardMove .left sqBottom (walls ++ cellBoxesP []) = sqBottomCand ∧
    sqBottomCand ≠ sqBottom := by decide

/-- Claim C6 (amended): movement is all-or-nothing per piece — a translate
request either leaves every falling cell's coordinates unchanged or shifts
all of them by the requested offset; partial moves are never applied.  (The
committing condition, however, is the direction-side collision scan at the
current position, not the collider on the candidate positions.) -/
theorem keyboardMove_all_or_nothing (d : MoveDir) (gravs : List V2) (blocks : List Box) :
    keyboardMove d gravs blocks = gravs ∨
      keyboardMove d gravs blocks = gravs.map (· + d.delta) := by
  unfold keyboardMove
  by_cases h : moveRejected d gravs blocks <;> simp [h]

/-- Claim C8: from the empty grid, the Line piece spawned at the fixed anchor
accepts the downward gravity move on each of the first 21 attempts (each
committing a one-cell drop), and the 22nd attempt is rejected by a
`Collision::Bottom` against the bottom wall, leaving the piece unchanged. -/
theorem line_descends_21_then_bottom :
    (∀ i < 21,
        moveRejected .down ((fun gs => applyGravity gs walls)^[i] lineAtSpawn) walls = false ∧
        (fun gs => applyGravity gs walls)^[i + 1] lineAtSpawn =
          ((fun gs => applyGravity gs walls)^[i] lineAtSpawn).map
            fun g => ⟨g.x, g.y - gravityVec.y⟩) ∧
    moveRejected .down ((fun gs => applyGravity gs walls)^[21] lineAtSpawn) walls = true ∧
    (∃ g ∈ (fun gs => applyGravity gs walls)^[21] lineAtSpawn, ∃ b ∈ walls,
        collideBlockGravity b g squareScale = some Collision.Bottom) ∧
    (fun gs => applyGravity gs walls)^[22] lineAtSpawn =
      (fun gs => applyGravity gs walls)^[21] lineAtSpawn := by decide

/-- Claim C2, counterexample: rotating a Square-shape piece at the spawn
anchor over an empty grid is accepted by the collision pre-check and changes
the set of the piece's four cell coordinates — the rotation pivots on one of
the four equidistant cells, which translates the 2x2 block instead of fixing
it, so rotation is not a no-op on coordinates. -/
theorem rotate_square_not_noop_ce :
    keyboardRotate squareAtSpawn (walls ++ cellBoxesP []) ≠ squareAtSpawn ∧
    (∃ p ∈ keyboardRotate squareAtSpawn (walls ++ cellBoxesP []), p ∉ squareAtSpawn) := by
  decide

/-- Centroid of a Square piece: the exact f32 sum-divided-by-4. -/
theorem midPoint_square (X Y : Int) :
    midPoint (ShapeTypes.build .Square X Y) = ⟨X + 20, Y - 20⟩ := by
  simp only [midPoint, ShapeTypes.build, SQUARE_SIZE, List.foldl_cons, List.foldl_nil,
    V2.mk.injEq]
  omega

/-- Pivot search on a Square piece: all four cells are Manhattan-equidistant
from the centroid, so the strict-improvement scan keeps the first cell. -/
theorem closestToMid_square (X Y : Int) :
    closestToMid (ShapeTypes.build .Square X Y) ⟨X + 20, Y - 20⟩ = ⟨X, Y⟩ := by
  simp only [closestToMid, ShapeTypes.build, SQUARE_SIZE, F32_MAX, List.foldl_cons,
    List.foldl_nil]
  split_ifs <;> first | rfl | (exfalso; omega)

/-- Claim C2 (amended): when the collision pre-check accepts the rotation of a
Square-shape piece, the set of the piece's four cell coordinates is not
preserved — with the first-listed cell as the nearest-to-centroid pivot, the
rotated coordinate set is the original translated one cell to the left;
coordinates stay unchanged only when the pre-check rejects the rotation. -/
theorem rotate_square_accepted_shifts (X Y : Int) (blocks : List Box)
    (hacc : rotateRejected (ShapeTypes.build .Square X Y) blocks = false) :
    ∀ p : V2, p ∈ keyboardRotate (ShapeTypes.build .Square X Y) blocks ↔
      p ∈ (ShapeTypes.build .Square X Y).map (· + ⟨-SQUARE_SIZE, 0⟩) := by
  intro p
  simp only [keyboardRotate, hacc, Bool.false_eq_true, if_false]
  rw [midPoint_square, closestToMid_square]
  obtain ⟨px, py⟩ := p
  simp only [ShapeTypes.build, SQUARE_SIZE, rotatePos, List.map_cons, List.map_nil,
    List.mem_cons, List.not_mem_nil, V2.add_mk, V2.mk.injEq, or_false]
  omega

/-- Claim C2, witness: at the spawn anchor over an empty grid the rotation is
accepted, and the witnessed coordinate sits in the rotated set exactly as in
the left-shifted set (namely, it does: it is the shifted top-left cell). -/
theorem rotate_square_accepted_shifts_witness :
    ((⟨-80, 360⟩ : V2) ∈ keyboardRotate (ShapeTypes.build .Square START_X START_Y)
        (walls ++ cellBoxesP [])) ↔
      (⟨-80, 360⟩ : V2) ∈ (ShapeTypes.build .Square START_X START_Y).map
        (· + ⟨-SQUARE_SIZE, 0⟩) :=
  rotate_square_accepted_shifts START_X START_Y (walls ++ cellBoxesP []) (by decide) ⟨-80, 360⟩

theorem resizeSlot_grid (s : RState) (y x : Nat) :
    (resizeSlot s y x).grid =
      mset (mset s.grid (dropDest s.grid x y) x (s.grid y x)) y x EMPTY := rfl

theorem dropDest_le (m : Grid) (x : Nat) : ∀ y, dropDest m x y ≤ y := by
  intro y
  induction y with
  | zero => exact Nat.le_refl 0
  | succ k ih =>
    simp only [dropDest]
    split
    · exact Nat.le_succ_of_le ih
    · exact Nat.le_refl _

theorem dropDest_support (m : Grid) (x : Nat) :
    ∀ y, dropDest m x y ≠ 0 → m (dropDest m x y - 1) x ≠ EMPTY := by
  intro y
  induction y with
  | zero => intro h; exact absurd rfl h
  | succ k ih =>
    simp only [dropDest]
    split
    · exact ih
    · next hne =>
      intro _
      simpa using hne

theorem dropDest_empty_between (m : Grid) (x : Nat) :
    ∀ y j, dropDest m x y ≤ j → j < y → m j x = EMPTY := by
  intro y
  induction y with
  | zero => intro j _ h; omega
  | succ k ih =>
    intro j hle hlt
    revert hle
    simp only [dropDest]
    split
    · intro hle
      rcases Nat.lt_or_ge j k with hj | hj
      · exact ih j hle hj
      · have hjk : j = k := by omega
        subst hjk
        next hemp => exact beq_iff_eq.mp hemp
    · intro hle; omega

theorem noGapAbove_congr (m m' : Grid) (x bound L : Nat)
    (he : ∀ y, m' y x = m y x) (h : noGapAbove m x bound L) :
    noGapAbove m' x bound L := by
  intro y hly hyb hocc
  rw [he] at hocc
  rcases h y hly hyb hocc with h0 | hne
  · exact Or.inl h0
  · exact Or.inr (by rw [he]; exact hne)

theorem resizeSlot_grid_frame (s : RState) (y x y' x' : Nat) (h : x' ≠ x) :
    (resizeSlot s y x).grid y' x' = s.grid y' x' := by
  rw [resizeSlot_grid, mset_other _ _ _ _ _ _ (by tauto), mset_other _ _ _ _ _ _ (by tauto)]

/-- One compaction slot step preserves gap-freedom below its row and
establishes it at its row: after processing `(y, x)` the column has no gap in
rows `[L, y+1)`. -/
theorem resizeSlot_step (s : RState) (L y x : Nat)
    (h : noGapAbove s.grid x y L) : noGapAbove (resizeSlot s y x).grid x (y + 1) L := by
  intro y' hly hyb hocc
  rw [resizeSlot_grid] at hocc
  by_cases hyy : y' = y
  · subst hyy
    exact absurd (mset_same _ _ _ _) hocc
  · have hylt : y' < y := by omega
    rw [mset_other _ _ _ _ _ _ (by tauto)] at hocc
    by_cases hyd : y' = dropDest s.grid x y
    · rw [hyd, mset_same] at hocc
      by_cases hd0 : dropDest s.grid x y = 0
      · exact Or.inl (by omega)
      · refine Or.inr ?_
        have hsup := dropDest_support s.grid x y hd0
        rw [resizeSlot_grid, mset_other _ _ _ _ _ _ (by omega),
          mset_other _ _ _ _ _ _ (by omega), hyd]
        exact hsup
    · rw [mset_other _ _ _ _ _ _ (by tauto)] at hocc
      rcases h y' hly hylt hocc with h0 | hne
      · exact Or.inl h0
      · refine Or.inr ?_
        by_cases hd1 : y' - 1 = dropDest s.grid x y
        · exfalso
          have hdlt : dropDest s.grid x y < y := by omega
          have hemp := dropDest_empty_between s.grid x y (dropDest s.grid x y)
            (Nat.le_refl _) hdlt
          rw [← hd1] at hemp
          exact hne hemp
        · rw [resizeSlot_grid, mset_other _ _ _ _ _ _ (by omega),
            mset_other _ _ _ _ _ _ (by tauto)]
          exact hne

/-- Folding the compaction step over a duplicate-free set of columns: other
columns are untouched, processed columns reach gap-freedom up to `y + 1`. -/
theorem resizeSlots_fold (L y : Nat) : ∀ (xs : List Nat) (s : RState), xs.Nodup →
    (∀ x ∈ xs, noGapAbove s.grid x y L) →
    (∀ x, x ∉ xs → ∀ y',
        ((xs.foldl (fun s x => resizeSlot s y x) s).grid y' x = s.grid y' x)) ∧
    (∀ x ∈ xs, noGapAbove ((xs.foldl (fun s x => resizeSlot s y x) s)).grid x (y + 1) L) := by
  intro xs
  induction xs with
  | nil => exact fun s _ _ => ⟨fun _ _ _ => rfl, fun x hx => absurd hx (List.not_mem_nil x)⟩
  | cons a xs ih =>
    intro s hnd hinv
    have hnd' : xs.Nodup := (List.nodup_cons.mp hnd).2
    have hna : a ∉ xs := (List.nodup_cons.mp hnd).1
    have hinv' : ∀ x ∈ xs, noGapAbove (resizeSlot s y a).grid x y L := by
      intro x hx
      exact noGapAbove_congr _ _ _ _ _
        (fun y' => resizeSlot_grid_frame s y a y' x (fun he => hna (he ▸ hx)))
        (hinv x (List.mem_cons_of_mem a hx))
    obtain ⟨ihframe, ihstep⟩ := ih (resizeSlot s y a) hnd' hinv'
    constructor
    · intro x hx y'
      have hxa : x ≠ a := fun he => hx (he ▸ List.mem_cons_self a xs)
      have hxs : x ∉ xs := fun hm => hx (List.mem_cons_of_mem a hm)
      simp only [List.foldl_cons]
      rw [ihframe x hxs y', resizeSlot_grid_frame s y a y' x hxa]
    · intro x hx
      simp only [List.foldl_cons]
      rcases List.mem_cons.mp hx with rfl | hxs
      · exact noGapAbove_congr _ _ _ _ _ (fun y' => ihframe x hna y')
          (resizeSlot_step s L y x (hinv x (List.mem_cons_self x xs)))
      · exact ihstep x hxs

/-- Folding whole compaction rows upward from `y0`. -/
theorem resizeRows_fold (L : Nat) : ∀ (n y0 : Nat) (s : RState),
    (∀ x, x < 11 → noGapAbove s.grid x y0 L) →
    ∀ x, x < 11 → noGapAbove ((rowsFrom y0 n).foldl resizeRow s).grid x (y0 + n) L := by
  intro n
  induction n with
  | zero => intro y0 s h x hx; exact h x hx
  | succ k ih =>
    intro y0 s h x hx
    have hrow : ∀ x, x < 11 → noGapAbove (resizeRow s y0).grid x (y0 + 1) L := by
      intro x' hx'
      have := (resizeSlots_fold L y0 (rowsFrom 0 11) s (rowsFrom_nodup 0 11)
        (fun x'' hm => h x'' ((mem_rowsFrom x'' 0 11).mp hm).2)).2
      exact this x' ((mem_rowsFrom x' 0 11).mpr ⟨Nat.zero_le _, by omega⟩)
    have := ih (y0 + 1) (resizeRow s y0) hrow x hx
    have harith : y0 + 1 + k = y0 + (k + 1) := by omega
    rw [harith] at this
    exact this

set_option maxRecDepth 40000 in
/-- Claim C3, counterexample to the claim as stated: entering the line-clear
with full row 3 and a settled cell at row 1 of column 0 above an empty row 0,
the clear-and-compaction step leaves column 0 occupied at row 1 with the slot
below it empty — the occupied cells of a column do not form a contiguous
block starting at the bottom row, because the compaction pass starts at the
highest cleared row and never relocates cells below it. -/
theorem clear_compaction_gap_ce :
    targetRowsToDelete gapGrid = [20] ∧
    (resizeAllObjects
        ⟨(deleteRows ⟨gapGrid, fun _ => none, []⟩ (targetRowsToDelete gapGrid)).grid,
          emptyInfo⟩ (maxTargetRow gapGrid)).grid 1 0 ≠ EMPTY ∧
    (resizeAllObjects
        ⟨(deleteRows ⟨gapGrid, fun _ => none, []⟩ (targetRowsToDelete gapGrid)).grid,
          emptyInfo⟩ (maxTargetRow gapGrid)).grid 0 0 = EMPTY := by decide

/-- Claim C3 (amended): after the compaction pass of the line-clear, in every
column no occupied slot at a row at or above the pass's starting row (the
highest cleared row) has an empty slot directly below it; gap-freedom holds
from that row up, while holes strictly below the starting row persist. -/
theorem resize_no_gap_at_or_above (m : Grid) (L x y : Nat)
    (hx : x < 11) (hL : L ≤ y) (hy : y < 22)
    (hocc : (resizeAllObjects ⟨m, emptyInfo⟩ L).grid y x ≠ EMPTY) :
    y = 0 ∨ (resizeAllObjects ⟨m, emptyInfo⟩ L).grid (y - 1) x ≠ EMPTY := by
  have h0 : ∀ x', x' < 11 → noGapAbove m x' L L := by
    intro x' _ y' hly hyl _
    omega
  have hall := resizeRows_fold L (22 - L) L ⟨m, emptyInfo⟩ h0 x hx
  have harith : L + (22 - L) = 22 := by omega
  rw [harith] at hall
  exact hall y hL hy hocc

set_option maxRecDepth 40000 in
/-- Claim C3, witness: compacting `supportGrid` from row 20 leaves row 20 of
column 0 occupied, and the amended theorem reports its support below. -/
theorem resize_no_gap_witness :
    (resizeAllObjects ⟨supportGrid, emptyInfo⟩ 20).grid 20 0 ≠ EMPTY ∧
    (20 = 0 ∨ (resizeAllObjects ⟨supportGrid, emptyInfo⟩ 20).grid (20 - 1) 0 ≠ EMPTY) :=
  ⟨by decide, resize_no_gap_at_or_above supportGrid 20 0 20 (by decide) (by decide) (by decide)
    (by decide)⟩

theorem deleteRow_despawned (y : Nat) : ∀ (xs : List Nat) (s : ClearState),
    ((xs.foldl (fun s x => deleteCell s y x) s).despawned).length =
      s.despawned.length + xs.length := by
  intro xs
  induction xs with
  | nil => intro s; rfl
  | cons a xs ih =>
    intro s
    simp only [List.foldl_cons]
    rw [ih (deleteCell s y a)]
    simp only [deleteCell, List.length_append, List.length_cons, List.length_nil]
    omega

theorem deleteRow_grid (y : Nat) : ∀ (xs : List Nat) (s : ClearState),
    ((xs.foldl (fun s x => deleteCell s y x) s).grid) =
      xs.foldl (fun g x => mset g y x EMPTY) s.grid := by
  intro xs
  induction xs with
  | nil => intro s; rfl
  | cons a xs ih =>
    intro s
    simp only [List.foldl_cons, ih (deleteCell s y a)]
    rfl

theorem delRowGrid_other (y : Nat) : ∀ (xs : List Nat) (g : Grid) (y' x' : Nat), y' ≠ y →
    (xs.foldl (fun g x => mset g y x EMPTY) g) y' x' = g y' x' := by
  intro xs
  induction xs with
  | nil => intro g y' x' _; rfl
  | cons a xs ih =>
    intro g y' x' hne
    simp only [List.foldl_cons, ih (mset g y a EMPTY) y' x' hne]
    exact mset_other _ _ _ _ _ _ (by tauto)

theorem delRowGrid_notmem (y : Nat) : ∀ (xs : List Nat) (g : Grid) (x' : Nat), x' ∉ xs →
    ∀ y', (xs.foldl (fun g x => mset g y x EMPTY) g) y' x' = g y' x' := by
  intro xs
  induction xs with
  | nil => intro g x' _ y'; rfl
  | cons a xs ih =>
    intro g x' hx y'
    have hxa : x' ≠ a := fun he => hx (he ▸ List.mem_cons_self a xs)
    have hxs : x' ∉ xs := fun hm => hx (List.mem_cons_of_mem a hm)
    simp only [List.foldl_cons, ih (mset g y a EMPTY) x' hxs y']
    exact mset_other _ _ _ _ _ _ (by tauto)

theorem delRowGrid_mem (y : Nat) : ∀ (xs : List Nat) (g : Grid), xs.Nodup → ∀ x ∈ xs,
    (xs.foldl (fun g x => mset g y x EMPTY) g) y x = EMPTY := by
  intro xs
  induction xs with
  | nil => intro g _ x hx; exact absurd hx (List.not_mem_nil x)
  | cons a xs ih =>
    intro g hnd x hx
    have hna : a ∉ xs := (List.nodup_cons.mp hnd).1
    simp only [List.foldl_cons]
    rcases List.mem_cons.mp hx with rfl | hxs
    · rw [delRowGrid_notmem y xs (mset g y x EMPTY) x hna y]
      exact mset_same _ _ _ _
    · exact ih (mset g y a EMPTY) (List.nodup_cons.mp hnd).2 x hxs

theorem rowFull_congr {m m' : Grid} {y : Nat} (h : ∀ x ∈ rowsFrom 0 11, m y x = m' y x) :
    rowFull m y = rowFull m' y := by
  have hiff : (rowFull m y = true) ↔ (rowFull m' y = true) := by
    simp only [rowFull, List.all_eq_true]
    constructor <;> intro hh x hx
    · rw [← h x hx]; exact hh x hx
    · rw [h x hx]; exact hh x hx
  cases hm : rowFull m y <;> cases hm' : rowFull m' y <;> simp_all

theorem rowCount_congr {m m' : Grid} {y : Nat} (h : ∀ x ∈ rowsFrom 0 11, m y x = m' y x) :
    rowCount m y = rowCount m' y := by
  unfold rowCount
  congr 1
  apply List.filter_congr
  intro x hx
  rw [h x hx]

theorem rowCount_full (m : Grid) (y : Nat) (h : rowFull m y = true) : rowCount m y = 11 := by
  unfold rowCount
  rw [List.filter_eq_self.mpr ?_]
  · exact length_rowsFrom 0 11
  · intro a ha
    exact List.all_eq_true.mp h a ha

theorem rowCount_zero_after (g : Grid) (y : Nat) :
    rowCount ((rowsFrom 0 11).foldl (fun g x => mset g y x EMPTY) g) y = 0 := by
  unfold rowCount
  rw [List.length_eq_zero, List.filter_eq_nil_iff]
  intro x hx
  have := delRowGrid_mem y (rowsFrom 0 11) g (rowsFrom_nodup 0 11) x hx
  simp [this]

theorem countOcc_deleteRow (g : Grid) (y : Nat) (hy : y < 22) (hfull : rowFull g y = true) :
    countOcc ((rowsFrom 0 11).foldl (fun g x => mset g y x EMPTY) g) + 11 = countOcc g := by
  unfold countOcc
  have hmem : y ∈ Finset.range 22 := Finset.mem_range.mpr hy
  rw [← Finset.sum_erase_add _ _ hmem, ← Finset.sum_erase_add _ (rowCount g) hmem]
  have hz := rowCount_zero_after g y
  have h11 := rowCount_full g y hfull
  have hcong : ∑ z ∈ (Finset.range 22).erase y,
      rowCount ((rowsFrom 0 11).foldl (fun g x => mset g y x EMPTY) g) z =
      ∑ z ∈ (Finset.range 22).erase y, rowCount g z := by
    apply Finset.sum_congr rfl
    intro z hz'
    exact rowCount_congr fun x _ =>
      delRowGrid_other y (rowsFrom 0 11) g z x (Finset.mem_erase.mp hz').1
  omega

theorem deleteRows_count : ∀ (rows : List Nat) (s : ClearState), rows.Nodup →
    (∀ y ∈ rows, y < 22 ∧ rowFull s.grid y = true) →
    countOcc (deleteRows s rows).grid + 11 * rows.length = countOcc s.grid ∧
    (deleteRows s rows).despawned.length = s.despawned.length + 11 * rows.length := by
  intro rows
  induction rows with
  | nil => intro s _ _; simp [deleteRows]
  | cons y rows ih =>
    intro s hnd hfull
    have hy22 := (hfull y (List.mem_cons_self y rows)).1
    have hyfull := (hfull y (List.mem_cons_self y rows)).2
    have hgrid1 : (deleteRow s y).grid = (rowsFrom 0 11).foldl (fun g x => mset g y x EMPTY) s.grid :=
      deleteRow_grid y (rowsFrom 0 11) s
    have hstep := countOcc_deleteRow s.grid y hy22 hyfull
    have hdesp : (deleteRow s y).despawned.length = s.despawned.length + 11 := by
      have := deleteRow_despawned y (rowsFrom 0 11) s
      rw [length_rowsFrom] at this
      exact this
    have hfull' : ∀ y' ∈ rows, y' < 22 ∧ rowFull (deleteRow s y).grid y' = true := by
      intro y' hy'
      have hne : y' ≠ y := fun he => (List.nodup_cons.mp hnd).1 (he ▸ hy')
      refine ⟨(hfull y' (List.mem_cons_of_mem y hy')).1, ?_⟩
      rw [show rowFull (deleteRow s y).grid y' = rowFull s.grid y' from
        rowFull_congr fun x _ => by rw [hgrid1, delRowGrid_other y _ _ _ _ hne]]
      exact (hfull y' (List.mem_cons_of_mem y hy')).2
    obtain ⟨hcount, hd⟩ := ih (deleteRow s y) (List.nodup_cons.mp hnd).2 hfull'
    constructor
    · show countOcc (deleteRows (deleteRow s y) rows).grid + 11 * (y :: rows).length =
        countOcc s.grid
      have h1 : countOcc (deleteRow s y).grid + 11 = countOcc s.grid := by
        rw [hgrid1]; exact hstep
      rw [List.length_cons]
      omega
    · show (deleteRows (deleteRow s y) rows).despawned.length =
        s.despawned.length + 11 * (y :: rows).length
      rw [List.length_cons, hd, hdesp]
      omega

/-- Claim C4: when the settlement-time scan finds the full rows of the matrix,
deleting them removes exactly `11 * k` occupied slots — the occupied-cell
count after the clear is the count before minus width times the number of
full rows — and exactly `11 * k` entities are despawned. -/
theorem line_clear_removes_width_per_row (m : Grid) (reg : Registry) :
    countOcc (deleteRows ⟨m, reg, []⟩ (targetRowsToDelete m)).grid
        + 11 * (targetRowsToDelete m).length = countOcc m ∧
    (deleteRows ⟨m, reg, []⟩ (targetRowsToDelete m)).despawned.length
        = 11 * (targetRowsToDelete m).length := by
  have hnd : (targetRowsToDelete m).Nodup := (rowsFrom_nodup 0 22).filter _
  have hfull : ∀ y ∈ targetRowsToDelete m, y < 22 ∧ rowFull m y = true := by
    intro y hy
    have hmem := List.mem_of_mem_filter hy
    have hprop := List.of_mem_filter hy
    exact ⟨by have := (mem_rowsFrom y 0 22).mp hmem; omega, hprop⟩
  have h := deleteRows_count (targetRowsToDelete m) ⟨m, reg, []⟩ hnd hfull
  simpa using h

/-- Claim C5: when the scan of `check_for_collision` finds a falling cell
blocked on side `Bottom`, the downward move is indeed rejected
(`apply_gravity`'s scan fires with side `Bottom`), and the tick's reaction is
exactly the sequential composition settle (`remove_related_entities`), then
spawn (`spawn_random_shape`), then line-clear (`when_object_landed`), the
latter running against the settled set captured at the start of the tick. -/
theorem checkForCollision_settle_spawn_clear_order (shape : ShapeTypes) (s : SimState)
    (g : Nat × V2) (h : findFirstBottom s = some g) :
    moveRejected .down (s.active.map (·.2)) (blockBoxes s) = true ∧
    checkForCollision shape s =
      whenObjectLanded (spawnRandomShape shape (removeRelatedEntities s g.1)) g s.settled := by
  constructor
  · have hmem := List.mem_of_find?_eq_some h
    have hp := List.find?_some h
    simp only [List.any_eq_true, decide_eq_true_eq] at hp
    obtain ⟨b, hb, hcol⟩ := hp
    simp only [moveRejected, List.any_eq_true, decide_eq_true_eq]
    exact ⟨g.2, List.mem_map_of_mem _ hmem, b, hb, hcol⟩
  · simp only [checkForCollision, h]

/-- Claim C5, witness: the resting Line piece triggers the settle-spawn-clear
sequence at its first cell. -/
theorem checkForCollision_order_witness :
    moveRejected .down (lineBottomState.active.map (·.2)) (blockBoxes lineBottomState) = true ∧
    checkForCollision .Line lineBottomState =
      whenObjectLanded (spawnRandomShape .Line (removeRelatedEntities lineBottomState 0))
        (0, ⟨-40, -480⟩) lineBottomState.settled :=
  checkForCollision_settle_spawn_clear_order .Line lineBottomState (0, ⟨-40, -480⟩) (by decide)

theorem regFold_erase (id : Nat) : ∀ (related : List Nat) (r : Registry), related.Nodup →
    ∀ k, (related.foldl (fun acc rel => regUpdate acc rel (fun l => l.erase id)) r) k =
      if k ∈ related then (r k).map (fun l => l.erase id) else r k := by
  intro related
  induction related with
  | nil => intro r _ k; simp
  | cons a rel ih =>
    intro r hnd k
    have hna : a ∉ rel := (List.nodup_cons.mp hnd).1
    simp only [List.foldl_cons]
    rw [ih (regUpdate r a fun l => l.erase id) (List.nodup_cons.mp hnd).2 k]
    by_cases hk : k = a
    · subst hk
      simp [hna, regUpdate, List.mem_cons]
    · by_cases hkr : k ∈ rel <;> simp [regUpdate, hk, hkr, List.mem_cons]

/-- Claim C7: detaching a cleared cell from a registry satisfying the group
invariants (values duplicate-free, sibling relation symmetric) removes the
cell's own record, purges its id from every remaining list, and preserves
sibling symmetry among the remaining cells. -/
theorem detach_preserves_symmetry (reg : Registry) (id : Nat) (lid : List Nat)
    (hid : reg id = some lid)
    (hnd : ∀ a la, reg a = some la → la.Nodup)
    (hsym : ∀ a b la lb, reg a = some la → reg b = some lb → (b ∈ la ↔ a ∈ lb)) :
    detachEntity reg id id = none ∧
    (∀ a la, detachEntity reg id a = some la → id ∉ la) ∧
    (∀ a b la lb, detachEntity reg id a = some la → detachEntity reg id b = some lb →
      (b ∈ la ↔ a ∈ lb)) := by
  have hlookup : ∀ k, detachEntity reg id k =
      if k = id then none
      else if k ∈ lid then (reg k).map (fun l => l.erase id) else reg k := by
    intro k
    simp only [detachEntity, hid, Option.getD_some, regRemove]
    by_cases hk : k = id
    · simp [hk]
    · simp only [hk, if_false]
      exact regFold_erase id lid reg (hnd id lid hid) k
  refine ⟨by simp [hlookup id], ?_, ?_⟩
  · intro a la ha
    rw [hlookup a] at ha
    by_cases hai : a = id
    · simp [hai] at ha
    · simp only [hai, if_false] at ha
      by_cases hal : a ∈ lid
      · simp only [hal, if_true, Option.map_eq_some'] at ha
        obtain ⟨la0, ha0, rfl⟩ := ha
        intro hmem
        exact absurd ((hnd a la0 ha0).mem_erase_iff.mp hmem).1 (by simp)
      · simp only [hal, if_false] at ha
        intro hmem
        exact hal ((hsym a id la lid ha hid).mp hmem)
  · intro a b la lb ha hb
    rw [hlookup a] at ha
    rw [hlookup b] at hb
    by_cases hai : a = id
    · simp [hai] at ha
    by_cases hbi : b = id
    · simp [hbi] at hb
    simp only [hai, hbi, if_false] at ha hb
    have hstrip : ∀ c lc, c ≠ id →
        (if c ∈ lid then (reg c).map (fun l => l.erase id) else reg c) = some lc →
        ∃ lc0, reg c = some lc0 ∧ ∀ e, e ≠ id → (e ∈ lc ↔ e ∈ lc0) := by
      intro c lc hci hc
      by_cases hcl : c ∈ lid
      · simp only [hcl, if_true, Option.map_eq_some'] at hc
        obtain ⟨lc0, hc0, rfl⟩ := hc
        exact ⟨lc0, hc0, fun e he => List.mem_erase_of_ne he⟩
      · simp only [hcl, if_false] at hc
        exact ⟨lc, hc, fun e _ => Iff.rfl⟩
    obtain ⟨la0, ha0, hae⟩ := hstrip a la hai ha
    obtain ⟨lb0, hb0, hbe⟩ := hstrip b lb hbi hb
    rw [hae b hbi, hbe a hai]
    exact hsym a b la0 lb0 ha0 hb0

/-- Claim C7, witness: detaching cell 1 from the four-cell group of
`lineBottomState` removes its record, purges it, and keeps symmetry, here
instantiated between cells 2 and 3. -/
theorem detach_preserves_symmetry_witness :
    detachEntity lineBottomState.objects 1 1 = none ∧
    (∀ a la, detachEntity lineBottomState.objects 1 a = some la → 1 ∉ la) ∧
    (∀ a b la lb, detachEntity lineBottomState.objects 1 a = some la →
      detachEntity lineBottomState.objects 1 b = some lb → (b ∈ la ↔ a ∈ lb)) := by
  refine detach_preserves_symmetry lineBottomState.objects 1 [0, 1, 2, 3] (by decide) ?_ ?_
  · intro a la hla
    simp only [lineBottomState] at hla
    by_cases ha : a < 4
    · simp only [ha, if_true, Option.some.injEq] at hla
      subst hla
      decide
    · simp [ha] at hla
  · intro a b la lb hla hlb
    simp only [lineBottomState] at hla hlb
    by_cases ha : a < 4 <;> by_cases hb : b < 4
    · rw [if_pos ha] at hla
      rw [if_pos hb] at hlb
      injection hla with h1
      injection hlb with h2
      subst h1
      subst h2
      simp only [List.mem_cons, List.not_mem_nil, or_false]
      omega
    · rw [if_neg hb] at hlb
      cases hlb
    · rw [if_neg ha] at hla
      cases hla
    · rw [if_neg ha] at hla
      cases hla

theorem regInsertFold_frame (v : List Nat) : ∀ (ids : List Nat) (r : Registry) (e : Nat),
    e ∉ ids → (ids.foldl (fun r k => regInsert r k v) r) e = r e := by
  intro ids
  induction ids with
  | nil => intro r e _; rfl
  | cons a ids ih =>
    intro r e he
    have hea : e ≠ a := fun h => he (h ▸ List.mem_cons_self a ids)
    have heids : e ∉ ids := fun h => he (List.mem_cons_of_mem a h)
    simp only [List.foldl_cons]
    rw [ih (regInsert r a v) e heids]
    simp [regInsert, hea]

theorem regInsertFold_lookup (v : List Nat) : ∀ (ids : List Nat) (r : Registry) (e : Nat),
    ids.Nodup → e ∈ ids → (ids.foldl (fun r k => regInsert r k v) r) e = some v := by
  intro ids
  induction ids with
  | nil => intro r e _ he; exact absurd he (List.not_mem_nil e)
  | cons a ids ih =>
    intro r e hnd he
    simp only [List.foldl_cons]
    rcases List.mem_cons.mp he with rfl | hm
    · rw [regInsertFold_frame v ids (regInsert r e v) e (List.nodup_cons.mp hnd).1]
      simp [regInsert]
    · exact ih (regInsert r a v) e (List.nodup_cons.mp hnd).2 hm

/-- Claim C10: every cell of a newly spawned piece is mapped by the registry
to the full four-element id list of that piece, a list that contains the
cell's own id. -/
theorem spawn_registers_full_group (shape : ShapeTypes) (s : SimState) (e : Nat)
    (he : e ∈ spawnEntityIds s) :
    (spawnRandomShape shape s).objects e = some (spawnEntityIds s) ∧
      e ∈ spawnEntityIds s := by
  refine ⟨?_, he⟩
  have hnd : (spawnEntityIds s).Nodup := by
    simp [spawnEntityIds]
  exact regInsertFold_lookup (spawnEntityIds s) (spawnEntityIds s) s.objects e hnd he

/-- Claim C10, witness: the piece spawned on settling `lineBottomState` maps
its first fresh cell (id 4) to the full group list containing id 4. -/
theorem spawn_registers_full_group_witness :
    (spawnRandomShape .Line lineBottomState).objects 4 =
        some (spawnEntityIds lineBottomState) ∧
      4 ∈ spawnEntityIds lineBottomState :=
  spawn_registers_full_group .Line lineBottomState 4 (by decide)

/-- Claim C9: accessing the occupancy matrix succeeds exactly on in-range
coordinates — for a well-formed 22x11 matrix, `matrixGet` is `some` when
`y < 22` and `x < 11` and `none` (the embedded image of the Rust indexing
panic, the fail-fast programming error) otherwise. -/
theorem grid_access_in_range_iff (m : List (List Nat)) (y x : Nat)
    (hrows : m.length = 22) (hcols : ∀ row ∈ m, row.length = 11) :
    (matrixGet m y x).isSome ↔ (y < 22 ∧ x < 11) := by
  unfold matrixGet
  cases hy : m.get? y with
  | none =>
    have hlen : m.length ≤ y := List.get?_eq_none.mp hy
    simp only [Option.none_bind, Option.isSome_none, Bool.false_eq_true, false_iff]
    omega
  | some row =>
    have hmem : row ∈ m := List.get?_mem hy
    have hlt : y < m.length := by
      by_contra hge
      rw [List.get?_eq_none.mpr (by omega)] at hy
      cases hy
    have hrl : row.length = 11 := hcols row hmem
    simp only [Option.some_bind]
    rw [← Option.ne_none_iff_isSome]
    constructor
    · intro hne
      refine ⟨by omega, ?_⟩
      by_contra hxge
      exact hne (List.get?_eq_none.mpr (by omega))
    · rintro ⟨-, hx⟩ hnone
      have := List.get?_eq_none.mp hnone
      omega

/-- Claim C9, witness: row index 25 is out of range on the freshly initialised
matrix, so the access does not return a value. -/
theorem grid_access_in_range_iff_witness :
    (matrixGet entityMatrixInit 25 0).isSome ↔ (25 < 22 ∧ 0 < 11) :=
  grid_access_in_range_iff entityMatrixInit 25 0 (by decide) (by decide)
